import Mathlib

/- Shallow embedding of `yreddit.py` (a Python 2 script).

   Modelling conventions:
   * Python text strings are lists of characters (`Str`); Python 2 byte
     strings are lists of byte values (`List Nat`).
   * Timestamps (`time.time()`) are integers.
   * The remote paged playlist-items API is a function from request number
     and requested `maxResults` to a page; continuation cursors are opaque,
     so pages are indexed by request number.
   * Fallible code returns `Except PyExn` / `Option PyExn`. -/

abbrev Str := List Char

deriving instance DecidableEq for Except

/-- Exceptions raised or caught by the modelled code. -/
inductive PyExn where
  | httpError
  | valueError
  | attributeError
  | otherError
deriving DecidableEq

/-- UTF-8 encoding of a single code point, as byte values. -/
def utf8Bytes (n : Nat) : List Nat :=
  if n < 128 then [n]
  else if n < 2048 then [192 + n / 64, 128 + n % 64]
  else if n < 65536 then [224 + n / 4096, 128 + n / 64 % 64, 128 + n % 64]
  else [240 + n / 262144, 128 + n / 4096 % 64, 128 + n / 64 % 64, 128 + n % 64]

/-- `key.encode('utf-8')` applied to a Python `unicode` string. -/
def encodeUTF8 (s : Str) : List Nat :=
  (s.map (fun c => utf8Bytes c.toNat)).flatten

/-- A Python 2 string value: a byte string (`str`) or a `unicode` string. -/
inductive PyKey where
  | pstr (bytes : List Nat)
  | puni (chars : Str)
deriving DecidableEq

/-- Key normalisation done inside each `ShelveWrapper` method
    (`if type(key) == unicode: key.encode(UTF8)`, lines 134, 140): a
    `unicode` key is encoded to UTF-8 bytes, a byte-string key is used
    unchanged. -/
def PyKey.norm : PyKey → List Nat
  | .pstr b => b
  | .puni s => encodeUTF8 s

/-- `ShelveWrapper` (lines 127-146) over an open shelve store, modelled as an
    association list from byte-string keys to timestamps, most recent write
    first. -/
structure ShelveWrapper where
  store : List (List Nat × Int)
deriving DecidableEq

/-- `__contains__` (lines 133-137). -/
def ShelveWrapper.containsKey (w : ShelveWrapper) (key : PyKey) : Bool :=
  w.store.any (fun p => p.1 = key.norm)

/-- `__setitem__` (lines 139-143); the newest binding shadows older ones. -/
def ShelveWrapper.setItem (w : ShelveWrapper) (key : PyKey) (value : Int) : ShelveWrapper :=
  ⟨(key.norm, value) :: w.store⟩

/-- Reading `wrapper[key]`: `ShelveWrapper` is an old-style Python 2 class
    defining `__contains__` and `__setitem__` but no `__getitem__`, so
    subscripting an instance for reading raises `AttributeError`, whatever the
    key and the store contents. -/
def ShelveWrapper.getItem (_ : ShelveWrapper) (_ : PyKey) : Except PyExn Int :=
  .error .attributeError

/-- Python `url.split('=')`: split on every occurrence of the separator. -/
def pySplitEq : Str → List Str
  | [] => [[]]
  | c :: rest =>
    if c = '=' then [] :: pySplitEq rest
    else
      match pySplitEq rest with
      | h :: t => (c :: h) :: t
      | [] => [[c]]

/-- `to_id` (lines 40-42): the unpacking `_, id = url.split('=')` succeeds
    only when the split yields exactly two parts; otherwise it raises
    `ValueError`. -/
def to_id (url : Str) : Except PyExn Str :=
  match pySplitEq url with
  | [_, id] => .ok id
  | _ => .error .valueError

/-- The double-quote character of the regular expression, written by code
    point. -/
def quoteChar : Char := Char.ofNat 34

/-- The literal `embed/` of the regular expression in line 45. -/
def embedLit : Str := ['e', 'm', 'b', 'e', 'd', '/']

/-- The group of the regular expression: the longest nonempty prefix free of
    question marks. -/
def captureAfterEmbed (b : Str) : Option Str :=
  let cap := b.takeWhile (fun c => c ≠ '?')
  if cap.isEmpty then none else some cap

/-- Backtracking of the greedy one-or-more-non-quote segment: try the
    rightmost reachable occurrence of `embed/` first (offsets `k+1` down
    to `1`). -/
def tryEmbedAt (r : Str) : Nat → Option Str
  | 0 => none
  | k + 1 =>
    if embedLit.isPrefixOf (r.drop (k + 1)) then
      match captureAfterEmbed (r.drop (k + 1 + 6)) with
      | some cap => some cap
      | none => tryEmbedAt r k
    else tryEmbedAt r k

/-- Match the pattern of line 45 anchored at the start of `cs`: the literal
    `src="`, one or more non-quote characters, the literal `embed/`, then the
    captured group. -/
def matchEmbedHere (cs : Str) : Option Str :=
  if (['s', 'r', 'c', '=', quoteChar] : Str).isPrefixOf cs then
    let r := cs.drop 5
    tryEmbedAt r ((r.takeWhile (fun c => c ≠ quoteChar)).length)
  else none

/-- `re.search`: scan candidate start positions left to right. -/
def searchEmbed : Str → Option Str
  | [] => none
  | c :: rest =>
    match matchEmbedHere (c :: rest) with
    | some cap => some cap
    | none => searchEmbed rest

/-- `extract_video_id_from_html` (lines 44-49): `none` when the pattern does
    not occur in the snippet (log-and-skip). -/
def extract_video_id_from_html (html : Str) : Option Str :=
  searchEmbed html

/-- The `media.oembed` block of a submission, with its three optional
    fields. -/
structure Oembed where
  provider_url : Option Str
  url : Option Str
  html : Option Str
deriving DecidableEq

/-- An upstream submission record. `media = none` covers a missing or falsy
    media payload; a truthy media payload without an `oembed` entry behaves
    exactly like `some ⟨none, none, none⟩` (the provider check fails either
    way). -/
structure Submission where
  media : Option Oembed
deriving DecidableEq

def youtube_provider : Str := "https://www.youtube.com/".data

/-- `get_youtube_video_ids` (lines 51-67) run over a list of submissions:
    the ids yielded before the generator either finishes (`none`) or dies
    with the exception raised by `to_id` (`some e`). Records without media
    or with a non-matching provider are skipped; the `html` branch yields
    only when the pattern matches. -/
def get_youtube_video_ids : List Submission → List Str × Option PyExn
  | [] => ([], none)
  | v :: rest =>
    match v.media with
    | none => get_youtube_video_ids rest
    | some oembed =>
      if oembed.provider_url = some youtube_provider then
        let htmlYield : List Str :=
          match oembed.html with
          | some h => (extract_video_id_from_html h).toList
          | none => []
        match oembed.url with
        | some u =>
          match to_id u with
          | .error e => ([], some e)
          | .ok id =>
            let r := get_youtube_video_ids rest
            (id :: (htmlYield ++ r.1), r.2)
        | none =>
          let r := get_youtube_video_ids rest
          (htmlYield ++ r.1, r.2)
      else get_youtube_video_ids rest

/-- The concatenated candidate stream over the configured sources
    (lines 73-76), truncated at the first extraction exception; the Boolean
    records whether the stream died with an exception (which then escapes to
    the top-level handler of `main`). -/
def rawCandidates : List (List Submission) → List Str × Bool
  | [] => ([], false)
  | src :: rest =>
    let r := get_youtube_video_ids src
    match r.2 with
    | some _ => (r.1, true)
    | none =>
      let s := rawCandidates rest
      (r.1 ++ s.1, s.2)

/-- The `seen`-set filter of `get_videos_by_topness` (lines 72-80). -/
def dedupGo (seen : List Str) : List Str → List Str
  | [] => []
  | id :: rest =>
    if id ∈ seen then dedupGo seen rest
    else id :: dedupGo (id :: seen) rest

/-- `get_videos_by_topness` (lines 69-80), over the four reddit feeds given
    as lists of submissions (the feeds themselves are external input). -/
def get_videos_by_topness (sources : List (List Submission)) : List Str × Bool :=
  let r := rawCandidates sources
  (dedupGo [] r.1, r.2)

/-- One response of the paged playlist-items API. -/
structure Page (α : Type) where
  items : List α
  nextPageToken : Option Str
deriving DecidableEq

/-- Outcome of running the fetch loop for a bounded number of iterations:
    `finished = false` means the iteration bound ran out with the loop still
    going (the fuel is a modelling device for the unbounded `while`). -/
structure FetchResult (α : Type) where
  yielded : List α
  requests : List Nat
  finished : Bool
deriving DecidableEq

/-- `fetch_playlist_items` (lines 113-125). `server i m` is the remote
    answer to the `i`-th page request, made with `maxResults = m`; the
    arguments after the fuel are `fetch_count` and the request index. -/
def fetch_playlist_items {α : Type} (server : Nat → Int → Page α) :
    Nat → Int → Nat → FetchResult α
  | 0, _, _ => ⟨[], [], false⟩
  | fuel + 1, fetch_count, idx =>
    if 0 < fetch_count then
      let page := server idx (min 50 fetch_count)
      match page.nextPageToken with
      | none => ⟨page.items, [idx], true⟩
      | some _ =>
        let r := fetch_playlist_items server fuel
          (fetch_count - (page.items.length : Int)) (idx + 1)
        ⟨page.items ++ r.yielded, idx :: r.requests, r.finished⟩
    else ⟨[], [], true⟩

/-- Remaining fetch budget at the moment the `j`-th request is about to be
    made, when the loop starts with budget `b`. -/
def fcAt {α : Type} (server : Nat → Int → Page α) (b : Int) : Nat → Int
  | 0 => b
  | j + 1 => fcAt server b j - ((server j (min 50 (fcAt server b j))).items.length : Int)

/-- Number of items yielded by the first `j` page requests. -/
def yieldedUpTo {α : Type} (server : Nat → Int → Page α) (b : Int) : Nat → Nat
  | 0 => 0
  | j + 1 => yieldedUpTo server b j + (server j (min 50 (fcAt server b j))).items.length

def READDITION_GRACE_SECONDS : Int := 2 * 24 * 60 * 60

/-- `add_video_url` (lines 96-105): given the outcome of the remote insert
    call (`none` on success), an `HttpError` is caught and logged; any other
    exception propagates to the caller. -/
def add_video_url (outcome : Option PyExn) : Option PyExn :=
  match outcome with
  | none => none
  | some .httpError => none
  | some e => some e

/-- State produced by the candidate loop of `main`. -/
structure SyncResult where
  addition : ShelveWrapper
  attempts : List Str
  err : Option PyExn
deriving DecidableEq

/-- The candidate loop of `main` (lines 173-179), threading the addition
    ledger. `insOut vid` is the outcome of the remote insert call for `vid`;
    `attempts` lists the video ids for which the insert call was made;
    `err = some e` means exception `e` escaped to the top-level handler and
    the remaining candidates were not processed. The short-circuit order of
    the condition in lines 174-176 is kept: the watch-history lookup first,
    then the addition-history membership test, and only then the
    addition-history read. -/
def syncLoop (watch : ShelveWrapper) (insOut : Str → Option PyExn) (now : Int) :
    ShelveWrapper → List Str → SyncResult
  | add, [] => ⟨add, [], none⟩
  | add, vid :: rest =>
    if watch.containsKey (.puni vid) then
      syncLoop watch insOut now add rest
    else if add.containsKey (.puni vid) then
      match add.getItem (.puni vid) with
      | .error e => ⟨add, [], some e⟩
      | .ok t =>
        if now - t < READDITION_GRACE_SECONDS then
          match add_video_url (insOut vid) with
          | some e => ⟨add, [vid], some e⟩
          | none =>
            let r := syncLoop watch insOut now add rest
            ⟨r.addition, vid :: r.attempts, r.err⟩
        else syncLoop watch insOut now add rest
    else
      match add_video_url (insOut vid) with
      | some e => ⟨add, [vid], some e⟩
      | none =>
        let r := syncLoop watch insOut now (add.setItem (.puni vid) now) rest
        ⟨r.addition, vid :: r.attempts, r.err⟩

/-- Events of a synchronisation run: a remote playlist-item delete call and a
    remote playlist-item insert call. -/
inductive Ev where
  | del (item : Str)
  | ins (vid : Str)
deriving DecidableEq

/-- Result of a synchronisation run. -/
structure RunResult where
  trace : List Ev
  addition : ShelveWrapper
  crashed : Bool
deriving DecidableEq

/-- `get_fresh_playlist` (lines 88-94): when a playlist with the target title
    exists, its entries are enumerated with `fetch_count=500` (line 92) and
    each enumerated entry is deleted remotely; otherwise a fresh playlist is
    created and nothing is deleted. Returns the ids passed to the delete
    call, in order. -/
def get_fresh_playlist (pexists : Bool) (pserver : Nat → Int → Page Str) (fuel : Nat) :
    List Str :=
  if pexists then (fetch_playlist_items pserver fuel 500 0).yielded else []

/-- The synchronisation run of `main` (lines 167-181): drain the existing
    playlist, then run the candidate loop over the candidate stream; the
    top-level handler (line 180) turns an escaped exception into
    `crashed = true`. -/
def mainRun (pexists : Bool) (pserver : Nat → Int → Page Str) (fuel : Nat)
    (watch add : ShelveWrapper) (insOut : Str → Option PyExn) (now : Int)
    (cands : List Str) : RunResult :=
  let dels := get_fresh_playlist pexists pserver fuel
  let s := syncLoop watch insOut now add cands
  ⟨dels.map Ev.del ++ s.attempts.map Ev.ins, s.addition, s.err.isSome⟩

/-- A remote playlist whose first response already lacks a continuation
    cursor. -/
def endServer : Nat → Int → Page Str := fun _ _ => ⟨[], none⟩

def xyzId : Str := "xyz789".data

/-- Claim C1: the spec (and its scenario) say that a candidate absent from the
    watch ledger whose addition-ledger timestamp lies within the grace window
    is judged eligible, inserted again, and keeps its original timestamp. The
    code instead evaluates `addition_history[video_id]` on a `ShelveWrapper`
    that has no `__getitem__`, so the run raises `AttributeError`, the
    top-level handler ends it, nothing is inserted and the trace is empty:
    with watch history empty, addition history `xyz789 ↦ 996400` and
    `now = 1000000` (one hour later, well within the two-day grace window),
    the run crashes with an empty trace and an unchanged ledger. -/
theorem C1_graced_readdition_crashes :
    mainRun false endServer 1 ⟨[]⟩ ⟨[(encodeUTF8 xyzId, 996400)]⟩
        (fun _ => none) 1000000 [xyzId]
      = ⟨[], ⟨[(encodeUTF8 xyzId, 996400)]⟩, true⟩ := by
  decide

def umlautKey : Str := "vidü".data

/-- Claim C2: `set` followed by `contains` succeeds and is
    representation-independent (a `unicode` key and its UTF-8 byte-string
    encoding are interchangeable), but the third claimed operation, reading
    back the written timestamp, does not exist: `ShelveWrapper` has no
    `__getitem__`, so the read raises `AttributeError` instead of returning
    the written value. -/
theorem C2_ledger_roundtrip_and_missing_get :
    ((ShelveWrapper.mk []).setItem (.puni umlautKey) 42).containsKey (.puni umlautKey)
        = true ∧
    ((ShelveWrapper.mk []).setItem (.puni umlautKey) 42).containsKey
        (.pstr (encodeUTF8 umlautKey)) = true ∧
    ((ShelveWrapper.mk []).setItem (.pstr (encodeUTF8 umlautKey)) 42).containsKey
        (.puni umlautKey) = true ∧
    ((ShelveWrapper.mk []).setItem (.puni umlautKey) 42).getItem (.puni umlautKey)
        = .error PyExn.attributeError := by
  decide

/-- Claim C9, counterexample: the claim promises that any URL with at least
    one `=` maps to the remainder after the first `=`; on `a=b=c` that would
    be `b=c`, but the two-element unpacking in `to_id` raises `ValueError`. -/
theorem C9_counterexample :
    to_id "a=b=c".data = .error PyExn.valueError ∧
    to_id "a=b=c".data ≠ .ok "b=c".data := by
  decide

theorem pySplitEq_no_sep (l : Str) (h : '=' ∉ l) : pySplitEq l = [l] := by
  induction l with
  | nil => rfl
  | cons c rest ih =>
    have hc : ¬ c = '=' := fun hc => h (by simp [hc])
    have hr : '=' ∉ rest := fun hm => h (by simp [hm])
    simp only [pySplitEq, if_neg hc, ih hr]

theorem pySplitEq_around_sep (a b : Str) (ha : '=' ∉ a) :
    pySplitEq (a ++ '=' :: b) = a :: pySplitEq b := by
  induction a with
  | nil => simp [pySplitEq]
  | cons c a2 ih =>
    have hc : ¬ c = '=' := fun hc => ha (by simp [hc])
    have ha2 : '=' ∉ a2 := fun hm => ha (by simp [hm])
    simp only [List.cons_append, pySplitEq, if_neg hc, List.append_eq, ih ha2]

/-- Claim C9, amended: for every URL of the shape `a=b` with exactly one `=`
    (neither side contains `=`), `to_id` returns the part after the `=`;
    URLs with zero or several `=` raise `ValueError` instead of returning a
    remainder. -/
theorem C9_to_id_single_sep (a b : Str) (ha : '=' ∉ a) (hb : '=' ∉ b) :
    to_id (a ++ '=' :: b) = .ok b := by
  unfold to_id
  rw [pySplitEq_around_sep a b ha, pySplitEq_no_sep b hb]

theorem C9_witness : to_id ("watch?v".data ++ '=' :: "abc".data) = .ok "abc".data :=
  C9_to_id_single_sep "watch?v".data "abc".data (by decide) (by decide)

/-- A YouTube submission whose oembed URL contains no `=` at all. -/
def badUrlSub : Submission :=
  ⟨some ⟨some youtube_provider, some "https://youtu.be/abc".data, none⟩⟩

/-- A YouTube submission with a single-query-parameter oembed URL. -/
def goodSub : Submission :=
  ⟨some ⟨some youtube_provider, some "watch?v=abc".data, none⟩⟩

/-- Claim C4, counterexample: on a record whose `oembed.url` has no `=`, the
    extraction does not skip-and-log: `to_id` raises `ValueError`, the
    generator dies, and the candidate feed ends before reaching the next
    source (here a perfectly well-formed one). -/
theorem C4_counterexample :
    get_youtube_video_ids [badUrlSub] = ([], some PyExn.valueError) ∧
    get_videos_by_topness [[badUrlSub], [goodSub]] = ([], true) := by
  decide

/-- A record is well-formed for the `oembed.url` branch when, if it reaches
    that branch at all, its URL splits on `=` into exactly two parts. -/
def urlWellformed (v : Submission) : Bool :=
  match v.media with
  | none => true
  | some o =>
    if o.provider_url = some youtube_provider then
      match o.url with
      | none => true
      | some u => decide ((pySplitEq u).length = 2)
    else true

theorem to_id_ok_of_two_parts (u : Str) (h : (pySplitEq u).length = 2) :
    ∃ id, to_id u = .ok id := by
  unfold to_id
  rcases hsp : pySplitEq u with _ | ⟨x, _ | ⟨y, _ | _⟩⟩ <;>
    simp [hsp] at h ⊢

/-- Claim C4, amended: records with a missing media payload, a non-YouTube
    provider, or an embed html that fails to match are skipped without any
    exception — but this tolerance does not extend to the `oembed.url`
    branch: only when every URL that reaches it splits on `=` into exactly
    two parts does the extraction finish without an exception (otherwise
    `to_id` raises `ValueError` and the candidate stream dies, see the
    counterexample). -/
theorem C4_extraction_nonfatal (vs : List Submission)
    (h : ∀ v ∈ vs, urlWellformed v = true) :
    (get_youtube_video_ids vs).2 = none := by
  induction vs with
  | nil => simp [get_youtube_video_ids]
  | cons v rest ih =>
    have hv := h v (by simp)
    have hrest := ih (fun w hw => h w (by simp [hw]))
    cases hm : v.media with
    | none => simp [get_youtube_video_ids, hm, hrest]
    | some o =>
      by_cases hp : o.provider_url = some youtube_provider
      · cases hu : o.url with
        | none => simp [get_youtube_video_ids, hm, hp, hu, hrest]
        | some u =>
          have h2 : (pySplitEq u).length = 2 := by
            have hvv := hv
            simp [urlWellformed, hm, hp, hu] at hvv
            exact hvv
          obtain ⟨id, hid⟩ := to_id_ok_of_two_parts u h2
          simp [get_youtube_video_ids, hm, hp, hu, hid, hrest]
      · simp [get_youtube_video_ids, hm, hp, hrest]

theorem C4_witness :
    (∀ v ∈ [goodSub, Submission.mk none], urlWellformed v = true) ∧
    (get_youtube_video_ids [goodSub, Submission.mk none]).2 = none :=
  ⟨by decide, C4_extraction_nonfatal [goodSub, Submission.mk none] (by decide)⟩

/-- A degenerate remote collection: every page carries zero items together
    with a continuation cursor. -/
def degenServer : Nat → Int → Page Str := fun _ _ => ⟨[], some ['t']⟩

theorem degen_never_finishes :
    ∀ fuel (fc : Int) idx, 0 < fc →
      (fetch_playlist_items degenServer fuel fc idx).finished = false ∧
      (fetch_playlist_items degenServer fuel fc idx).requests.length = fuel := by
  intro fuel
  induction fuel with
  | zero => intro fc idx _; exact ⟨rfl, rfl⟩
  | succ n ih =>
    intro fc idx h
    have hrec := ih fc (idx + 1) h
    simp [fetch_playlist_items, degenServer, if_pos h, hrec.1, hrec.2]

/-- Claim C3, counterexample: on a collection whose pages all have zero items
    but a continuation cursor, the fetch budget never decreases and the loop
    never exits: there is no iteration count after which the fetch has
    terminated, and after 1000 iterations it has made 1000 page requests
    instead of stopping at the first degenerate page. -/
theorem C3_counterexample :
    (¬ ∀ (server : Nat → Int → Page Str) (b : Int), 0 < b →
        ∃ fuel, (fetch_playlist_items server fuel b 0).finished = true) ∧
    (fetch_playlist_items degenServer 1000 50 0).requests.length = 1000 := by
  constructor
  · intro hall
    obtain ⟨fuel, hf⟩ := hall degenServer 50 (by norm_num)
    rw [(degen_never_finishes fuel 50 0 (by norm_num)).1] at hf
    exact absurd hf (by decide)
  · exact (degen_never_finishes 1000 50 0 (by norm_num)).2

theorem fetch_terminates_aux {α : Type} (server : Nat → Int → Page α)
    (h : ∀ i m, (server i m).nextPageToken.isSome = true → (server i m).items ≠ []) :
    ∀ n (fc : Int) idx, fc.toNat ≤ n →
      (fetch_playlist_items server (n + 1) fc idx).finished = true := by
  intro n
  induction n with
  | zero =>
    intro fc idx hn
    have hfc : ¬ 0 < fc := by omega
    simp [fetch_playlist_items, hfc]
  | succ n ih =>
    intro fc idx hn
    by_cases hfc : 0 < fc
    · cases htok : (server idx (min 50 fc)).nextPageToken with
      | none => simp [fetch_playlist_items, if_pos hfc, htok]
      | some tk =>
        have hne : (server idx (min 50 fc)).items ≠ [] :=
          h idx (min 50 fc) (by rw [htok]; rfl)
        have hlen : 0 < (server idx (min 50 fc)).items.length :=
          List.length_pos.mpr hne
        simp only [fetch_playlist_items, if_pos hfc, htok]
        exact ih (fc - ((server idx (min 50 fc)).items.length : Int)) (idx + 1) (by omega)
    · simp [fetch_playlist_items, hfc]

/-- Claim C3, amended: the fetch terminates for every response sequence in
    which each page carrying a continuation cursor contains at least one
    item (then `b.toNat + 1` loop iterations always complete the fetch);
    without that assumption the loop can run forever — a zero-item page with
    a cursor is re-requested indefinitely rather than treated as a stop (see
    the counterexample). -/
theorem C3_fetch_terminates {α : Type} (server : Nat → Int → Page α)
    (h : ∀ i m, (server i m).nextPageToken.isSome = true → (server i m).items ≠ [])
    (b : Int) (idx : Nat) :
    (fetch_playlist_items server (b.toNat + 1) b idx).finished = true :=
  fetch_terminates_aux server h b.toNat b idx le_rfl

theorem C3_witness :
    (fetch_playlist_items endServer ((3 : Int).toNat + 1) 3 0).finished = true :=
  C3_fetch_terminates endServer (fun i m hsome => by simp [endServer] at hsome) 3 0

theorem fetch_requests_budget {α : Type} (server : Nat → Int → Page α) (b : Int) :
    ∀ fuel idx j,
      j ∈ (fetch_playlist_items server fuel (fcAt server b idx) idx).requests →
      0 < fcAt server b j := by
  intro fuel
  induction fuel with
  | zero => intro idx j hj; simp [fetch_playlist_items] at hj
  | succ n ih =>
    intro idx j hj
    by_cases hfc : 0 < fcAt server b idx
    · cases htok : (server idx (min 50 (fcAt server b idx))).nextPageToken with
      | none =>
        simp only [fetch_playlist_items, if_pos hfc, htok, List.mem_singleton] at hj
        subst hj
        exact hfc
      | some tk =>
        simp only [fetch_playlist_items, if_pos hfc, htok, List.mem_cons] at hj
        rcases hj with hj | hj
        · subst hj; exact hfc
        · have harg :
              fcAt server b idx
                  - ((server idx (min 50 (fcAt server b idx))).items.length : Int)
                = fcAt server b (idx + 1) := by
            rw [fcAt]
          rw [harg] at hj
          exact ih (idx + 1) j hj
    · simp [fetch_playlist_items, hfc] at hj

theorem fetch_cursor_stop {α : Type} (server : Nat → Int → Page α) (b : Int) :
    ∀ fuel idx j,
      j + 1 ∈ (fetch_playlist_items server fuel (fcAt server b idx) idx).requests →
      j + 1 = idx ∨ (server j (min 50 (fcAt server b j))).nextPageToken.isSome = true := by
  intro fuel
  induction fuel with
  | zero => intro idx j hj; simp [fetch_playlist_items] at hj
  | succ n ih =>
    intro idx j hj
    by_cases hfc : 0 < fcAt server b idx
    · cases htok : (server idx (min 50 (fcAt server b idx))).nextPageToken with
      | none =>
        simp only [fetch_playlist_items, if_pos hfc, htok, List.mem_singleton] at hj
        left; exact hj
      | some tk =>
        simp only [fetch_playlist_items, if_pos hfc, htok, List.mem_cons] at hj
        rcases hj with hj | hj
        · left; exact hj
        · have harg :
              fcAt server b idx
                  - ((server idx (min 50 (fcAt server b idx))).items.length : Int)
                = fcAt server b (idx + 1) := by
            rw [fcAt]
          rw [harg] at hj
          rcases ih (idx + 1) j hj with h1 | h1
          · right
            have hji : j = idx := by omega
            subst hji
            rw [htok]
            rfl
          · right; exact h1
    · simp [fetch_playlist_items, hfc] at hj

theorem fcAt_eq_sub {α : Type} (server : Nat → Int → Page α) (b : Int) :
    ∀ j, fcAt server b j = b - (yieldedUpTo server b j : Int) := by
  intro j
  induction j with
  | zero => simp [fcAt, yieldedUpTo]
  | succ n ih =>
    rw [fcAt, yieldedUpTo, ih]
    push_cast
    ring

/-- Claim C6: with budget `0` the fetch yields nothing and makes no page
    request; a page request `j` is only ever made while the total number of
    items yielded by the earlier requests is still below the budget `b`
    (`fcAt server b j = b - yieldedUpTo server b j` by `fcAt_eq_sub`); and a
    request is made after request `j` only when the response to request `j`
    carried a continuation cursor. -/
theorem C6_fetch_budget_and_cursor_stop {α : Type} (server : Nat → Int → Page α)
    (b : Int) (fuel : Nat) :
    fetch_playlist_items server (fuel + 1) 0 0 = ⟨[], [], true⟩ ∧
    (∀ j, j ∈ (fetch_playlist_items server fuel b 0).requests →
      (yieldedUpTo server b j : Int) < b) ∧
    (∀ j, j + 1 ∈ (fetch_playlist_items server fuel b 0).requests →
      (server j (min 50 (fcAt server b j))).nextPageToken.isSome = true) := by
  refine ⟨by simp [fetch_playlist_items], ?_, ?_⟩
  · intro j hj
    have hb : fcAt server b 0 = b := rfl
    have h1 := fetch_requests_budget server b fuel 0 j (by rwa [hb])
    have h2 := fcAt_eq_sub server b j
    omega
  · intro j hj
    have hb : fcAt server b 0 = b := rfl
    rcases fetch_cursor_stop server b fuel 0 j (by rwa [hb]) with h | h
    · exact absurd h (Nat.succ_ne_zero j)
    · exact h

/-- A remote collection answering every request with one item and a
    cursor. -/
def demoServer : Nat → Int → Page Str := fun _ _ => ⟨[['a']], some ['t']⟩

theorem C6_witness :
    1 ∈ (fetch_playlist_items demoServer 5 2 0).requests ∧
    (yieldedUpTo demoServer 2 1 : Int) < 2 :=
  ⟨by decide, (C6_fetch_budget_and_cursor_stop demoServer 2 5).2.1 1 (by decide)⟩

theorem fetch_yield_le_budget {α : Type} (server : Nat → Int → Page α)
    (h : ∀ i m, ((server i m).items.length : Int) ≤ max m 0) :
    ∀ fuel (fc : Int) idx,
      (fetch_playlist_items server fuel fc idx).yielded.length ≤ fc.toNat := by
  intro fuel
  induction fuel with
  | zero => intro fc idx; simp [fetch_playlist_items]
  | succ n ih =>
    intro fc idx
    by_cases hfc : 0 < fc
    · have hlen := h idx (min 50 fc)
      have hmax : max (min (50 : Int) fc) 0 = min 50 fc :=
        max_eq_left (le_min (by norm_num) (le_of_lt hfc))
      rw [hmax] at hlen
      have hminle : min (50 : Int) fc ≤ fc := min_le_right _ _
      cases htok : (server idx (min 50 fc)).nextPageToken with
      | none =>
        simp only [fetch_playlist_items, if_pos hfc, htok]
        omega
      | some tk =>
        simp only [fetch_playlist_items, if_pos hfc, htok, List.length_append]
        have hrec := ih (fc - ((server idx (min 50 fc)).items.length : Int)) (idx + 1)
        omega
    · simp [fetch_playlist_items, hfc]

/-- Claim C5, amended: the sync run performs all its delete calls before any
    insert call, but the drain is not unbounded: the existing playlist is
    enumerated with a fetch budget of 500 (line 92), so whenever the remote
    honours `maxResults` the drain deletes at most 500 entries; entries
    beyond the budget are never enumerated or deleted (see the
    counterexample with 501 entries). -/
theorem C5_drain_budget_500 (pexists : Bool) (pserver : Nat → Int → Page Str)
    (fuel : Nat) (watch add : ShelveWrapper) (insOut : Str → Option PyExn)
    (now : Int) (cands : List Str) :
    (mainRun pexists pserver fuel watch add insOut now cands).trace =
      (get_fresh_playlist pexists pserver fuel).map Ev.del ++
        (syncLoop watch insOut now add cands).attempts.map Ev.ins ∧
    (pexists = true →
      get_fresh_playlist pexists pserver fuel =
        (fetch_playlist_items pserver fuel 500 0).yielded) ∧
    ((∀ i m, ((pserver i m).items.length : Int) ≤ max m 0) →
      (get_fresh_playlist pexists pserver fuel).length ≤ 500) := by
  refine ⟨rfl, ?_, ?_⟩
  · intro hp
    simp [get_fresh_playlist, hp]
  · intro hsrv
    cases pexists with
    | false => simp [get_fresh_playlist]
    | true =>
      have hb := fetch_yield_le_budget pserver hsrv fuel 500 0
      simpa [get_fresh_playlist] using hb

theorem C5_witness :
    (get_fresh_playlist true endServer 7).length ≤ 500 :=
  (C5_drain_budget_500 true endServer 7 ⟨[]⟩ ⟨[]⟩ (fun _ => none) 0 []).2.2
    (fun i m => by
      simp only [endServer, List.length_nil, Nat.cast_zero]
      exact le_max_right m 0)

/-- A remote playlist holding 501 entries (the numbers 0..500), served in
    pages of 50 followed by a final one-item page without a cursor. -/
def bigServer : Nat → Int → Page Nat :=
  fun i _ =>
    if i < 10 then ⟨(List.range 50).map (fun k => 50 * i + k), some ['t']⟩
    else ⟨[500], none⟩

set_option maxRecDepth 40000 in
/-- Claim C5, counterexample: the drain budget is 500, not unbounded. On a
    playlist of 501 entries an unbounded fetch would enumerate all of
    0..500, but the drain of `get_fresh_playlist` runs with budget 500,
    exits the loop normally once the budget is spent, and never enumerates
    (hence never deletes) entry 500. -/
theorem C5_counterexample :
    (fetch_playlist_items bigServer 20 100000 0).yielded = List.range 501 ∧
    (fetch_playlist_items bigServer 20 500 0).finished = true ∧
    500 ∉ (fetch_playlist_items bigServer 20 500 0).yielded := by
  refine ⟨by decide, by decide, by decide⟩

theorem syncLoop_attempts_unwatched (watch : ShelveWrapper)
    (insOut : Str → Option PyExn) (now : Int) :
    ∀ (cands : List Str) (add : ShelveWrapper) (x : Str),
      x ∈ (syncLoop watch insOut now add cands).attempts →
      watch.containsKey (.puni x) = false := by
  intro cands
  induction cands with
  | nil => intro add x hx; simp [syncLoop] at hx
  | cons vid rest ih =>
    intro add x hx
    by_cases hw : watch.containsKey (.puni vid)
    · rw [syncLoop, if_pos hw] at hx
      exact ih add x hx
    · have hwf : watch.containsKey (.puni vid) = false := by
        simp only [Bool.not_eq_true] at hw
        exact hw
      by_cases ha : add.containsKey (.puni vid)
      · simp [syncLoop, hw, ha, ShelveWrapper.getItem] at hx
      · cases hi : add_video_url (insOut vid) with
        | some e =>
          simp only [syncLoop, if_neg hw, if_neg ha, hi, List.mem_singleton] at hx
          subst hx
          exact hwf
        | none =>
          simp only [syncLoop, if_neg hw, if_neg ha, hi, List.mem_cons] at hx
          rcases hx with hx | hx
          · subst hx; exact hwf
          · exact ih _ x hx

/-- Claim C7: a candidate id present in the watch-history ledger is never
    inserted into the playlist by the sync run, whatever the addition
    ledger, the playlist state and the other candidates. -/
theorem C7_watched_never_inserted (pexists : Bool) (pserver : Nat → Int → Page Str)
    (fuel : Nat) (watch add : ShelveWrapper) (insOut : Str → Option PyExn) (now : Int)
    (cands : List Str) (vid : Str)
    (h : watch.containsKey (.puni vid) = true) :
    Ev.ins vid ∉ (mainRun pexists pserver fuel watch add insOut now cands).trace := by
  intro hmem
  simp only [mainRun, List.mem_append, List.mem_map] at hmem
  rcases hmem with ⟨x, -, hx⟩ | ⟨x, hx, hxx⟩
  · exact Ev.noConfusion hx
  · obtain rfl : x = vid := by injection hxx
    have hfalse := syncLoop_attempts_unwatched watch insOut now cands add x hx
    rw [h] at hfalse
    exact Bool.noConfusion hfalse

def abcId : Str := "abc".data

theorem C7_witness :
    Ev.ins abcId ∉
      (mainRun false endServer 1 ⟨[(encodeUTF8 abcId, 5)]⟩ ⟨[]⟩
        (fun _ => none) 0 [abcId]).trace :=
  C7_watched_never_inserted false endServer 1 ⟨[(encodeUTF8 abcId, 5)]⟩ ⟨[]⟩
    (fun _ => none) 0 [abcId] abcId (by decide)

theorem dedupGo_mem_not_seen :
    ∀ (l seen : List Str) (x : Str), x ∈ dedupGo seen l → x ∉ seen := by
  intro l
  induction l with
  | nil => intro seen x hx; simp [dedupGo] at hx
  | cons id rest ih =>
    intro seen x hx
    by_cases hid : id ∈ seen
    · rw [dedupGo, if_pos hid] at hx
      exact ih seen x hx
    · rw [dedupGo, if_neg hid] at hx
      rcases List.mem_cons.mp hx with h | h
      · subst h; exact hid
      · intro hxs
        exact ih (id :: seen) x h (List.mem_cons_of_mem id hxs)

theorem dedupGo_nodup : ∀ (l seen : List Str), (dedupGo seen l).Nodup := by
  intro l
  induction l with
  | nil => intro seen; simp [dedupGo]
  | cons id rest ih =>
    intro seen
    by_cases hid : id ∈ seen
    · rw [dedupGo, if_pos hid]; exact ih seen
    · rw [dedupGo, if_neg hid]
      refine List.nodup_cons.mpr ⟨?_, ih (id :: seen)⟩
      intro hmem
      exact dedupGo_mem_not_seen rest (id :: seen) id hmem (List.mem_cons_self id seen)

theorem dedupGo_sublist : ∀ (l seen : List Str), List.Sublist (dedupGo seen l) l := by
  intro l
  induction l with
  | nil => intro seen; simp [dedupGo]
  | cons id rest ih =>
    intro seen
    by_cases hid : id ∈ seen
    · rw [dedupGo, if_pos hid]
      exact (ih seen).trans (List.sublist_cons_self id rest)
    · rw [dedupGo, if_neg hid]
      exact (ih (id :: seen)).cons₂ id

theorem dedupGo_complete :
    ∀ (l seen : List Str) (x : Str), x ∈ l → x ∉ seen → x ∈ dedupGo seen l := by
  intro l
  induction l with
  | nil => intro seen x hx _; simp at hx
  | cons id rest ih =>
    intro seen x hx hxs
    by_cases hid : id ∈ seen
    · rw [dedupGo, if_pos hid]
      rcases List.mem_cons.mp hx with h | h
      · subst h; exact absurd hid hxs
      · exact ih seen x h hxs
    · rw [dedupGo, if_neg hid]
      by_cases hxid : x = id
      · subst hxid; exact List.mem_cons_self x _
      · rcases List.mem_cons.mp hx with h | h
        · exact absurd h hxid
        · refine List.mem_cons_of_mem id (ih (id :: seen) x h ?_)
          intro hmem
          rcases List.mem_cons.mp hmem with h2 | h2
          · exact hxid h2
          · exact hxs h2

/-- Claim C8: within one invocation, the candidate feed never yields the same
    id twice; the yielded sequence is a subsequence of the raw
    source-then-item ordered stream (order preserved, later duplicate
    occurrences suppressed), and every id of the raw stream does appear
    once. -/
theorem C8_candidate_feed_dedup (sources : List (List Submission)) :
    (get_videos_by_topness sources).1.Nodup ∧
    List.Sublist (get_videos_by_topness sources).1 (rawCandidates sources).1 ∧
    ∀ id, id ∈ (rawCandidates sources).1 → id ∈ (get_videos_by_topness sources).1 := by
  refine ⟨?_, ?_, ?_⟩
  · exact dedupGo_nodup (rawCandidates sources).1 []
  · exact dedupGo_sublist (rawCandidates sources).1 []
  · intro id hid
    exact dedupGo_complete (rawCandidates sources).1 [] id hid (by simp)

def demoSources : List (List Submission) := [[goodSub], [goodSub]]

theorem C8_witness :
    "abc".data ∈ (rawCandidates demoSources).1 ∧
    "abc".data ∈ (get_videos_by_topness demoSources).1 :=
  ⟨by decide, (C8_candidate_feed_dedup demoSources).2.2 "abc".data (by decide)⟩

/-- Claim C10: `add_video_url` catches exactly `HttpError` (logging and
    returning normally); every other exception raised by the insert call
    propagates to the caller, and in the candidate loop it aborts the run at
    that candidate: the result is the untouched ledger, the single attempted
    id, and the escaped exception — the remaining candidates are not
    processed. -/
theorem C10_only_httperror_caught :
    add_video_url (some .httpError) = none ∧
    add_video_url none = none ∧
    (∀ e : PyExn, e ≠ .httpError → add_video_url (some e) = some e) ∧
    ∀ (watch add : ShelveWrapper) (insOut : Str → Option PyExn) (now : Int)
      (vid : Str) (rest : List Str) (e : PyExn),
      insOut vid = some e → e ≠ .httpError →
      watch.containsKey (.puni vid) = false → add.containsKey (.puni vid) = false →
      syncLoop watch insOut now add (vid :: rest) = ⟨add, [vid], some e⟩ := by
  refine ⟨rfl, rfl, ?_, ?_⟩
  · intro e he
    cases e
    · exact absurd rfl he
    · rfl
    · rfl
    · rfl
  · intro watch add insOut now vid rest e hio he hw ha
    have hav : add_video_url (insOut vid) = some e := by
      rw [hio]
      cases e
      · exact absurd rfl he
      · rfl
      · rfl
      · rfl
    simp [syncLoop, hw, ha, hav]

theorem C10_witness :
    syncLoop ⟨[]⟩ (fun _ => some PyExn.valueError) 0 ⟨[]⟩ [abcId]
      = ⟨⟨[]⟩, [abcId], some PyExn.valueError⟩ :=
  C10_only_httperror_caught.2.2.2 ⟨[]⟩ ⟨[]⟩ (fun _ => some PyExn.valueError) 0 abcId []
    PyExn.valueError rfl (by decide) (by decide) (by decide)
